import Mathlib

/-!
Verification of the dataset pipeline engine: a shallow embedding of the
action-record interpreter (`pipeline.py`), the pipeline builder operations
(`concat`, `append_action`, `from_pipeline`), the prefetch scheduler's
consumer loop (`_run_batches_from_queue`), the model registry's
double-checked-locking resolution (`decorators.py`, `_model_wrapper`),
and the parallel dispatcher's sequential back-end and default aggregation
(`wrap_with_for`, `_call_post_fn`).
-/

/-- One recorded action step, modelling the dict
`{'name': ..., 'args': ..., 'kwargs': ..., 'proba': ..., 'repeat': ...}`
appended by `Pipeline.__getattr__` / `Pipeline.append_action`.  Argument and
keyword values are abstracted as naturals; `rpt` models the `'repeat'` key. -/
structure ActionRecord where
  name : String
  args : List Nat := []
  kwargs : List (String × Nat) := []
  proba : Option ℚ := none
  rpt : Option Nat := none
deriving DecidableEq, Inhabited, Repr

/-- Model of `mult_option(a, b)` from pipeline.py: `a * b` if both are non-None,
else whichever is non-None. -/
def mult_option {α : Type} [Mul α] : Option α → Option α → Option α
  | some a, some b => some (a * b)
  | some a, none => some a
  | none, b => b

/-- Model of `Pipeline._needs_exec`: an action with `proba is None` always runs;
otherwise one Bernoulli trial `np.random.binomial(1, proba) == 1` decides.
The trial's outcome is passed in as `draw`. -/
def needs_exec (proba : Option ℚ) (draw : Bool) : Bool :=
  match proba with
  | none => true
  | some _ => draw

/-- The `for _ in range(n)` loop of `Pipeline._exec_one_action`: apply the
(re-bound) action method `n` times, threading the batch through. -/
def execLoop (f : Nat → Nat) : Nat → Nat → Nat
  | 0, b => b
  | n + 1, b => execLoop f n (f b)

/-- Python truthiness of `x or d` for an optional integer `x`:
`None or d = d` and `0 or d = d`, otherwise `x`.  This is exactly
`action['repeat'] or 1` as evaluated in `_exec_one_action`. -/
def pyOr (x : Option Nat) (d : Nat) : Nat :=
  match x with
  | none => d
  | some n => if n = 0 then d else n

/-- Model of `Pipeline._exec_one_action`: if the probability gate fires, invoke the
bound action method `action['repeat'] or 1` times, re-binding it to the
current batch each iteration; otherwise return the batch unchanged.
The batch is abstracted as a natural and the bound operation as `f`. -/
def exec_one_action (f : Nat → Nat) (a : ActionRecord) (draw : Bool) (b : Nat) : Nat :=
  if needs_exec a.proba draw then execLoop f (pyOr a.rpt 1) b else b

/-- Stated from the spec's words for comparison (C2): "if it executes its
effect is run exactly `repeat` times (a record with repeat None runs once)". -/
def spec_exec_one_action (f : Nat → Nat) (a : ActionRecord) (draw : Bool) (b : Nat) : Nat :=
  if needs_exec a.proba draw then f^[a.rpt.getD 1] b else b

/-- Queue capacities and pool sizes set up by `Pipeline.gen_batch` when
`prefetch > 0`: `prefetch = min(prefetch, 62)`, executor of
`prefetch + 1` workers, `_prefetch_count = Queue(maxsize=prefetch + 1)`,
`_prefetch_queue = Queue(maxsize=prefetch)`, `_batch_queue = Queue(maxsize=1)`.
Returns `none` when `prefetch = 0` (no scheduler resources are created). -/
structure PrefetchResources where
  poolWorkers : Nat
  admissionCap : Nat
  resultCap : Nat
  deliveryCap : Nat
deriving DecidableEq, Repr

/-- Resource sizing of `Pipeline.gen_batch` (pipeline.py lines 653-667). -/
def gen_batch_resources (prefetch : Nat) : Option PrefetchResources :=
  if prefetch > 0 then
    let p := min prefetch 62
    some { poolWorkers := p + 1, admissionCap := p + 1, resultCap := p, deliveryCap := 1 }
  else
    none

/-- Pointwise function update used for the list heap (models rebinding or
in-place mutation of one Python list object, identified by its address). -/
def updFn (f : Nat → List ActionRecord) (r : Nat) (l : List ActionRecord) :
    Nat → List ActionRecord :=
  fun x => if x = r then l else f x

/-- A heap of Python list objects: `mem` maps an address to the list value
stored there, `next` is the next fresh address.  Needed to state the
no-shared-list-mutation parts of the spec faithfully. -/
structure Store where
  mem : Nat → List ActionRecord
  next : Nat

/-- Read the list object at address `r`. -/
def readRef (st : Store) (r : Nat) : List ActionRecord := st.mem r

/-- Mutate the list object at address `r` in place. -/
def writeRef (st : Store) (r : Nat) (l : List ActionRecord) : Store :=
  { st with mem := updFn st.mem r l }

/-- Allocate a fresh list object holding `l`; returns its address.
Models Python list creation (`[:]` copies, `[:-1]` slices, literals). -/
def alloc (st : Store) (l : List ActionRecord) : Nat × Store :=
  (st.next, { mem := updFn st.mem st.next l, next := st.next + 1 })

/-- A `Pipeline` object: its bound `dataset` (abstracted as an optional id),
the address of its `_action_list` object, and its `_variables` dict
(values abstracted as naturals). -/
structure PipelineR where
  dataset : Option Nat
  actionsRef : Nat
  vars : List (String × Nat)

/-- Errors raised by the embedded code (`ValueError`, ...); the message text
is irrelevant to the claims. -/
inductive PyError where
  | valueError
deriving DecidableEq, Repr

/-- Model of `Pipeline.get_last_action_proba`: `self._action_list[-1]['proba']`
(only ever called on a single-element list). -/
def get_last_action_proba (l : List ActionRecord) : Option ℚ :=
  (l.getLast?.getD default).proba

/-- Model of `Pipeline.get_last_action_repeat`: `self._action_list[-1]['repeat']`. -/
def get_last_action_repeat (l : List ActionRecord) : Option Nat :=
  (l.getLast?.getD default).rpt

/-- Model of `self._action_list[-1].update(...)` / assignment to `[-1]`:
replace the last record by `f` of it. -/
def updateLastRec (l : List ActionRecord) (f : ActionRecord → ActionRecord) :
    List ActionRecord :=
  l.dropLast ++ (l.getLast?.map f).toList

/-- The `if self.num_actions == 1:` adjustment block of `Pipeline.__init__`
when constructed from another pipeline with an optional `proba` / `repeat`:
multiplies the modifier onto the single record only when the competing
modifier is unset. -/
def adjust_single_action (l : List ActionRecord) (proba : Option ℚ) (rpt : Option Nat) :
    List ActionRecord :=
  if l.length = 1 then
    if proba ≠ none then
      if get_last_action_repeat l = none then
        updateLastRec l (fun a => { a with proba := mult_option proba a.proba })
      else l
    else if rpt ≠ none then
      if get_last_action_proba l = none then
        updateLastRec l (fun a => { a with rpt := mult_option rpt a.rpt })
      else l
    else l
  else l

/-- Model of `Pipeline.__init__(pipeline=p, proba, repeat)`: copy `p._action_list`
(`[:]` — a fresh list object), apply the single-record adjustment, share
dataset and variables. -/
def init_from_pipeline (st : Store) (p : PipelineR) (proba : Option ℚ) (rpt : Option Nat) :
    Store × PipelineR :=
  let l := adjust_single_action (readRef st p.actionsRef) proba rpt
  let (r, st) := alloc st l
  (st, { dataset := p.dataset, actionsRef := r, vars := p.vars })

/-- Model of `Pipeline.from_pipeline(pipeline)` with default arguments
(`proba=None, repeat=None`), the only form `concat` and `append_action`
invoke: it reduces to `cls(pipeline=pipeline)`. -/
def from_pipeline (st : Store) (p : PipelineR) : Store × PipelineR :=
  init_from_pipeline st p none none

/-- Python's `a or b` on two optional values (a dataset is truthy unless
it is `None`): `pipe1.dataset or pipe2.dataset`. -/
def pyOr_opt (a b : Option Nat) : Option Nat :=
  match a with
  | none => b
  | some x => some x

/-- Python's `{**d1, **d2}` on dicts encoded as association lists:
keys of `d1` keep their position but take `d2`'s value when shared,
then `d2`'s new keys follow. -/
def pyDictMerge {α : Type} (d1 d2 : List (String × α)) : List (String × α) :=
  d1.map (fun kv => (kv.1, ((d2.lookup kv.1).getD kv.2))) ++
    d2.filter (fun kv => (d1.lookup kv.1).isNone)

/-- Model of `Pipeline.concat(pipe1, pipe2)`: raises `ValueError` when the datasets
differ and are both non-None; otherwise copies both pipelines via
`from_pipeline`, extends the first copy's action list in place with the
second copy's records, merges the variable dicts and binds
`pipe1.dataset or pipe2.dataset`. -/
def concat (st : Store) (pipe1 pipe2 : PipelineR) :
    Except PyError (Store × PipelineR) :=
  if pipe1.dataset ≠ pipe2.dataset ∧ pipe1.dataset ≠ none ∧ pipe2.dataset ≠ none then
    .error .valueError
  else
    let (st1, new_p1) := from_pipeline st pipe1
    let (st2, new_p2) := from_pipeline st1 pipe2
    let st3 := writeRef st2 new_p1.actionsRef
      (readRef st2 new_p1.actionsRef ++ readRef st2 new_p2.actionsRef)
    .ok (st3, { new_p1 with
                  vars := pyDictMerge pipe1.vars pipe2.vars,
                  dataset := pyOr_opt pipe1.dataset pipe2.dataset })

/-- Model of `Pipeline.__getattr__(name)` for a batch-action name: appends the
partial record `{'name': name}` to `self._action_list` in place
(the remaining keys are filled in by `append_action`). -/
def getattr_action (st : Store) (p : PipelineR) (name : String) : Store :=
  writeRef st p.actionsRef (readRef st p.actionsRef ++ [{ name := name }])

/-- Model of `Pipeline.append_action(*args, **kwargs)`: completes the last record
with the call's arguments, builds `new_p = self.from_pipeline(self)`
(which copies the extended list), then rebinds `self._action_list` to the
fresh list `self._action_list[:-1]`.  Returns `(store, self', new_p)`
where `self'` is the original pipeline object after the rebinding. -/
def append_action (st : Store) (p : PipelineR) (args : List Nat)
    (kwargs : List (String × Nat)) : Store × PipelineR × PipelineR :=
  let st := writeRef st p.actionsRef
    (updateLastRec (readRef st p.actionsRef)
      (fun a => { a with args := args, kwargs := kwargs, proba := none, rpt := none }))
  let (st, new_p) := from_pipeline st p
  let (r, st) := alloc st ((readRef st p.actionsRef).dropLast)
  (st, { p with actionsRef := r }, new_p)

/-- The full append path `p.some_action(*args, **kwargs)`:
`__getattr__` followed by `append_action`. -/
def call_action_method (st : Store) (p : PipelineR) (name : String)
    (args : List Nat) (kwargs : List (String × Nat)) :
    Store × PipelineR × PipelineR :=
  append_action (getattr_action st p name) p args kwargs

/-- Python's negative-start slice `s[-k:]`: the last `k` characters, except
that `k = 0` (since `-0 == 0`) yields the whole string. -/
def pyNegSlice (s : String) (k : Nat) : String :=
  if k = 0 then s else ⟨s.data.drop (s.data.length - k)⟩

/-- Model of `ModelDirectory.equal_names(model_name, model_ref)`:
`model_ref[-len(name):] == name`, i.e. suffix matching of qualified names
(keys are modelled as strings; a callable key is first turned into its
qualified name by the source). -/
def equal_names (model_name model_ref : String) : Bool :=
  pyNegSlice model_ref model_name.length == model_name

/-- A per-model configuration dict (values abstracted as naturals). -/
abbrev Config : Type := List (String × Nat)

/-- The configuration-merging step of `_model_wrapper` (decorators.py lines
229-241), reached when the model does not exist yet: collect the pipeline
configuration keys that suffix-match the builder's qualified name; more than
one match raises `ValueError` ("Ambigous config ..."); exactly one match
merges `full_config[key] or dict()` with `config or dict()`, the call's
`config` values winning; otherwise `config` is passed through unchanged.
`full_config = none` models a pipeline without a configuration (or no
pipeline), skipping the block. -/
def resolve_model_config (full_config : Option (List (String × Option Config)))
    (full_model_name : String) (config : Option Config) :
    Except PyError (Option Config) :=
  match full_config with
  | none => .ok config
  | some fc =>
    match (fc.map Prod.fst).filter (fun k => equal_names k full_model_name) with
    | [] => .ok config
    | [k] =>
      let config_p := ((fc.lookup k).join).getD []
      let config_a := config.getD []
      .ok (some (pyDictMerge config_p config_a))
    | _ => .error .valueError

/-- The resolved outcome of one parallel bundle as observed by
`_call_post_fn`: either the bundle's value or the exception captured from
it (`result = exce`).  Values and exceptions are abstracted as naturals. -/
inductive BundleRes where
  | val (v : Nat)
  | exc (e : Nat)
deriving DecidableEq, Repr

/-- Model of `isinstance(res, Exception)` on a collected result. -/
def isException : BundleRes → Bool
  | .exc _ => true
  | .val _ => false

/-- Model of `any_action_failed(results)` from decorators.py. -/
def any_action_failed (results : List BundleRes) : Bool :=
  results.any (fun r => isException r)

/-- The collection loop of `_call_post_fn`: walk the futures in order,
capture each value-or-exception, `all_results += [result]`.  The futures
are modelled as already-resolved outcomes (`future.result()` returning the
value or raising the captured exception). -/
def collect_results (futures : List BundleRes) : List BundleRes :=
  futures.foldl (fun all r => all ++ [r]) []

/-- What `_call_post_fn` produces: the returned object plus the diagnostic
side effects of the default branch (`print(all_errors)` and
`traceback.print_tb(all_errors[0].__traceback__)`).  The owning object
`self` and post-hook results are abstracted as naturals. -/
structure PostOutcome where
  result : Nat
  printedErrors : List BundleRes
  printedTraceback : Option BundleRes
deriving DecidableEq, Repr

/-- Model of `_call_post_fn(self, post_fn, futures, ...)`: collect all per-bundle
results in order; with no `post` hook, print the aggregated exceptions and
the first one's traceback when any bundle failed — never re-raising — and
return `self`; with a `post` hook, return `post_fn(all_results, ...)`. -/
def call_post_fn (self : Nat) (post_fn : Option (List BundleRes → Nat))
    (futures : List BundleRes) : PostOutcome :=
  let all_results := collect_results futures
  match post_fn with
  | none =>
    if any_action_failed all_results then
      let all_errors := all_results.filter (fun r => isException r)
      { result := self, printedErrors := all_errors,
        printedTraceback := all_errors.head? }
    else
      { result := self, printedErrors := [], printedTraceback := none }
  | some f =>
    { result := f all_results, printedErrors := [], printedTraceback := none }

/-- What one invocation of the wrapped method yields inside
`wrap_with_for`'s try block: a plain value, a raised exception, or a
callable (which the back-end then invokes once with the same bundle). -/
inductive MethodRes where
  | val (v : Nat)
  | exc (e : Nat)
  | fn (g : Nat → BundleRes)

/-- The body of `wrap_with_for`'s per-bundle try/except: run the method on
the bundle; if the result is callable, call it with the same arguments;
any exception raised is captured as that bundle's result. -/
def forOne (method : Nat → MethodRes) (arg : Nat) : BundleRes :=
  match method arg with
  | .val v => .val v
  | .exc e => .exc e
  | .fn g => g arg

/-- Model of `wrap_with_for(self, args, kwargs)` minus the final `_call_post_fn`
hand-off: iterate the init-produced bundles in order on the calling thread,
appending each bundle's captured result to `futures`. -/
def wrap_with_for (method : Nat → MethodRes) (init_bundles : List Nat) :
    List BundleRes :=
  init_bundles.foldl (fun futures arg => futures ++ [forOne method arg]) []

/-- What `future.result()` yields for one in-flight unit in the prefetch
consumer: a finished batch, a raised `SkipBatchException`, or any other
raised exception. -/
inductive FutRes where
  | ok (b : Nat)
  | skipExc
  | err
deriving DecidableEq, Repr

/-- The consumer's loop state in `Pipeline._run_batches_from_queue`:
the `skip_batch` flag, the current binding of the local variable `batch`
(`none` = not yet bound), the batches delivered to `_batch_queue` so far,
and whether the thread died from an uncaught exception
(`UnboundLocalError` when the `finally` block reads an unbound `batch`). -/
structure ConsState where
  skip_batch : Bool := false
  batch : Option Nat := none
  delivered : List Nat := []
  crashed : Bool := false
deriving DecidableEq, Repr

/-- One iteration of the consumer loop of `_run_batches_from_queue` on a
non-sentinel future: try `batch = future.result()`, the two except clauses,
then the `finally` block `if not skip_batch: _batch_queue.put(batch);
skip_batch = False` (the reset being inside the guarded branch).  A crashed
thread processes nothing further. -/
def consume_future (s : ConsState) (f : FutRes) : ConsState :=
  if s.crashed then s
  else
    let s1 :=
      match f with
      | .ok b => { s with batch := some b }
      | .skipExc => { s with skip_batch := true }
      | .err => s
    if s1.skip_batch then s1
    else
      match s1.batch with
      | some b => { s1 with delivered := s1.delivered ++ [b], skip_batch := false }
      | none => { s1 with crashed := true }

/-- Model of `Pipeline._run_batches_from_queue` run over a finite prefix of the
prefetch queue (the futures before the `None` sentinel), starting from
`skip_batch = False` and an unbound local `batch`. -/
def run_batches_from_queue (futs : List FutRes) : ConsState :=
  futs.foldl consume_future {}

/-- Stated from the spec's words for comparison (C1): each unit raising any
exception (skip signal included) is omitted and iteration continues, so the
delivered batches are exactly the successfully executed units, in order. -/
def spec_consumer_delivered (futs : List FutRes) : List Nat :=
  futs.filterMap (fun f => match f with | .ok b => some b | _ => none)

/-- Program counter of one worker resolving a `@model`-decorated builder in
`_model_wrapper` (decorators.py lines 217-251): the unlocked existence
check, acquiring `_pipeline_model_lock`, the re-check under the lock, the
builder call, the release, and the final `ModelDirectory.get_model` read. -/
inductive PC where
  | start
  | acquire
  | recheck
  | build
  | unlock
  | readModel
  | done (result : Nat)
deriving DecidableEq, Repr

/-- Shared state for `n` workers concurrently resolving one
(builder, owning pipeline) key: `dir` is the model directory entry for that
key, `lock` the holder of the per-builder lock, `builds` the number of
builder invocations so far, `pcs` each worker's position. -/
structure RegState (n : Nat) where
  dir : Option Nat
  lock : Option (Fin n)
  builds : Nat
  pcs : Fin n → PC

/-- Update one worker's program counter. -/
def setPC {n : Nat} (pcs : Fin n → PC) (t : Fin n) (c : PC) : Fin n → PC :=
  fun x => if x = t then c else pcs x

/-- Initial state: no entry, lock free, no builds, all workers at the
unlocked existence check. -/
def regInit (n : Nat) : RegState n :=
  { dir := none, lock := none, builds := 0, pcs := fun _ => PC.start }

/-- Interleaving semantics of `_model_wrapper`'s double-checked locking,
one atomic step at a time.  `builder k` is the model specification produced
by the `k`-th builder invocation (so distinct invocations may differ). -/
inductive RegStep (builder : Nat → Nat) {n : Nat} : RegState n → RegState n → Prop where
  | check1_hit (s : RegState n) (t : Fin n) (h1 : s.pcs t = PC.start)
      (h2 : s.dir ≠ none) :
      RegStep builder s { s with pcs := setPC s.pcs t PC.readModel }
  | check1_miss (s : RegState n) (t : Fin n) (h1 : s.pcs t = PC.start)
      (h2 : s.dir = none) :
      RegStep builder s { s with pcs := setPC s.pcs t PC.acquire }
  | lock_acquire (s : RegState n) (t : Fin n) (h1 : s.pcs t = PC.acquire)
      (h2 : s.lock = none) :
      RegStep builder s { s with lock := some t, pcs := setPC s.pcs t PC.recheck }
  | recheck_hit (s : RegState n) (t : Fin n) (h1 : s.pcs t = PC.recheck)
      (h2 : s.dir ≠ none) :
      RegStep builder s { s with pcs := setPC s.pcs t PC.unlock }
  | recheck_miss (s : RegState n) (t : Fin n) (h1 : s.pcs t = PC.recheck)
      (h2 : s.dir = none) :
      RegStep builder s { s with pcs := setPC s.pcs t PC.build }
  | do_build (s : RegState n) (t : Fin n) (h1 : s.pcs t = PC.build) :
      RegStep builder s { s with dir := some (builder s.builds),
                                 builds := s.builds + 1,
                                 pcs := setPC s.pcs t PC.unlock }
  | do_unlock (s : RegState n) (t : Fin n) (h1 : s.pcs t = PC.unlock) :
      RegStep builder s { s with lock := none, pcs := setPC s.pcs t PC.readModel }
  | do_read (s : RegState n) (t : Fin n) (v : Nat) (h1 : s.pcs t = PC.readModel)
      (h2 : s.dir = some v) :
      RegStep builder s { s with pcs := setPC s.pcs t (PC.done v) }

/-- States reachable from the initial state by interleaved worker steps. -/
inductive RegReach (builder : Nat → Nat) {n : Nat} : RegState n → Prop where
  | init : RegReach builder (regInit n)
  | step {s s' : RegState n} : RegReach builder s → RegStep builder s s' →
      RegReach builder s'

/-- A worker whose pc is in the lock-protected region. -/
def inRegion : PC → Prop :=
  fun c => c = PC.recheck ∨ c = PC.build ∨ c = PC.unlock

/-- Inductive invariant of the double-checked-locking protocol. -/
structure RegInv {n : Nat} (s : RegState n) : Prop where
  region_lock : ∀ t, inRegion (s.pcs t) → s.lock = some t
  build_dir : ∀ t, s.pcs t = PC.build → s.dir = none
  dir_builds : s.dir = none ↔ s.builds = 0
  builds_le : s.builds ≤ 1
  done_dir : ∀ t v, s.pcs t = PC.done v → s.dir = some v

/-- Tests whether the embedded call raised. -/
def isError {ε α : Type} : Except ε α → Bool
  | .error _ => true
  | .ok _ => false

/-- A demonstration action record. -/
def demoRec (s : String) : ActionRecord := { name := s }

/-- A concrete two-pipeline heap: list object 0 holds one record, list
object 1 holds two. -/
def c7Store : Store :=
  { mem := updFn (updFn (fun _ => []) 0 [demoRec ("a")]) 1 [demoRec ("b"), demoRec ("c")],
    next := 2 }

/-- A pipeline over list object 0, bound to dataset 3. -/
def c7p1 : PipelineR := { dataset := some 3, actionsRef := 0, vars := [] }

/-- A pipeline over list object 1, bound to dataset 3. -/
def c7p2 : PipelineR := { dataset := some 3, actionsRef := 1, vars := [] }

/-- The successful concatenation of `c7p1` and `c7p2`. -/
def c7Res : Store × PipelineR :=
  match concat c7Store c7p1 c7p2 with
  | .ok r => r
  | .error _ =>
    ({ mem := fun _ => [], next := 0 }, { dataset := none, actionsRef := 0, vars := [] })

/-- A pipeline bound to dataset 1 (conflicts with `c9pb`). -/
def c9pa : PipelineR := { dataset := some 1, actionsRef := 0, vars := [] }

/-- A pipeline bound to dataset 2. -/
def c9pb : PipelineR := { dataset := some 2, actionsRef := 1, vars := [] }

/-- A pipeline with no bound dataset. -/
def c9pc : PipelineR := { dataset := none, actionsRef := 0, vars := [] }

/-- A pipeline bound to dataset 7. -/
def c9pd : PipelineR := { dataset := some 7, actionsRef := 1, vars := [] }

/-- The successful concatenation of `c9pc` (no dataset) and `c9pd`. -/
def c9Res : Store × PipelineR :=
  match concat c7Store c9pc c9pd with
  | .ok r => r
  | .error _ =>
    ({ mem := fun _ => [], next := 0 }, { dataset := none, actionsRef := 0, vars := [] })

/-- Appending one action to `c7p1` in the heap `c7Store`. -/
def c8Res : Store × PipelineR × PipelineR :=
  call_action_method c7Store c7p1 ("load") [5] [(("fmt"), 1)]

/-- A pipeline configuration with two model keys, both quality as suffixes
of a name ending in `B.A.f`. -/
def c6fc : List (String × Option Config) :=
  [(("A.f"), some [(("x"), 1), (("y"), 2)]), (("B.A.f"), none)]

/-- A call-site config overriding the `x` entry. -/
def c6conf : Option Config := some [(("x"), 9)]

/-- A single-record action carrying `repeat = 5` and no probability. -/
def c2rec : ActionRecord := { name := ("op"), rpt := some 5 }

/-- A single-record action carrying `repeat = 0` and no probability. -/
def c2rec0 : ActionRecord := { name := ("op"), rpt := some 0 }

/-- The builder used in the registry witness trace: every invocation
returns 42. -/
def c3builder : Nat → Nat := fun _ => 42

/-- Registry witness trace, step 0: two workers at the initial check. -/
def c3s0 : RegState 2 := regInit 2

/-- Worker 0 misses the unlocked check. -/
def c3s1 : RegState 2 := { c3s0 with pcs := setPC c3s0.pcs 0 PC.acquire }

/-- Worker 0 takes the builder lock. -/
def c3s2 : RegState 2 :=
  { c3s1 with lock := some 0, pcs := setPC c3s1.pcs 0 PC.recheck }

/-- Worker 0 misses the re-check under the lock. -/
def c3s3 : RegState 2 := { c3s2 with pcs := setPC c3s2.pcs 0 PC.build }

/-- Worker 0 invokes the builder and stores the entry. -/
def c3s4 : RegState 2 :=
  { c3s3 with dir := some (c3builder c3s3.builds), builds := c3s3.builds + 1,
              pcs := setPC c3s3.pcs 0 PC.unlock }

/-- Worker 0 releases the lock. -/
def c3s5 : RegState 2 :=
  { c3s4 with lock := none, pcs := setPC c3s4.pcs 0 PC.readModel }

/-- Worker 0 reads the cached entry. -/
def c3s6 : RegState 2 := { c3s5 with pcs := setPC c3s5.pcs 0 (PC.done 42) }

/-- Worker 1 hits the unlocked check (entry already cached). -/
def c3s7 : RegState 2 := { c3s6 with pcs := setPC c3s6.pcs 1 PC.readModel }

/-- Worker 1 reads the cached entry without building. -/
def c3s8 : RegState 2 := { c3s7 with pcs := setPC c3s7.pcs 1 (PC.done 42) }

theorem execLoop_eq_iterate (f : Nat → Nat) : ∀ n b, execLoop f n b = f^[n] b := by
  intro n
  induction n with
  | zero => intro b; rfl
  | succ k ih =>
      intro b
      rw [execLoop, ih, Function.iterate_succ_apply]

theorem updFn_same (f : Nat → List ActionRecord) (r : Nat) (l : List ActionRecord) :
    updFn f r l r = l := by
  simp [updFn]

theorem updFn_ne (f : Nat → List ActionRecord) (r : Nat) (l : List ActionRecord)
    (x : Nat) (h : x ≠ r) : updFn f r l x = f x := by
  simp [updFn, h]

theorem foldl_append_singleton {α β : Type} (g : α → β) :
    ∀ (xs : List α) (acc : List β),
      xs.foldl (fun fs a => fs ++ [g a]) acc = acc ++ xs.map g := by
  intro xs
  induction xs with
  | nil => intro acc; simp
  | cons h t ih => intro acc; simp [ih]

theorem foldl_snoc_eq {β : Type} : ∀ (xs acc : List β),
    xs.foldl (fun all r => all ++ [r]) acc = acc ++ xs := by
  intro xs
  induction xs with
  | nil => intro acc; simp
  | cons h t ih => intro acc; simp [ih]

theorem collect_results_eq (futures : List BundleRes) :
    collect_results futures = futures := by
  unfold collect_results
  rw [foldl_snoc_eq]
  simp

/-- C10: for every requested look-ahead depth greater than 62, `gen_batch`
silently caps the effective depth at 62: the admission queue
(`_prefetch_count`) gets capacity 63, the result-handle queue
(`_prefetch_queue`) capacity 62, and the execution pool 63 workers. -/
theorem gen_batch_prefetch_cap (prefetch : Nat) (h : 62 < prefetch) :
    gen_batch_resources prefetch =
      some { poolWorkers := 63, admissionCap := 63, resultCap := 62, deliveryCap := 1 } := by
  unfold gen_batch_resources
  rw [if_pos (by omega)]
  have hm : min prefetch 62 = 62 := by omega
  rw [hm]

theorem gen_batch_prefetch_cap_witness :
    62 < 100 ∧
    gen_batch_resources 100 =
      some { poolWorkers := 63, admissionCap := 63, resultCap := 62, deliveryCap := 1 } :=
  ⟨by decide, gen_batch_prefetch_cap 100 (by decide)⟩

/-- C2 counterexample: an action record with `repeat = 0` and no
probability runs its effect once (`action['repeat'] or 1` evaluates to 1),
not zero times as "exactly `repeat` times" would require. -/
theorem exec_repeat_zero_counterexample :
    exec_one_action Nat.succ c2rec0 true 0 = 1 ∧
    spec_exec_one_action Nat.succ c2rec0 true 0 = 0 := by
  exact ⟨rfl, rfl⟩

/-- C2 (amended): execution is gated by one Bernoulli trial (an absent
probability always executes); when it executes, the effect runs
`max(repeat, 1)` times for a present `repeat` and once for an absent one —
in particular an action with `repeat = 5` and no probability invokes the
bound operation exactly 5 times — but a `repeat` of 0 still runs once. -/
theorem exec_gate_and_repeat_amended (f : Nat → Nat) (a : ActionRecord)
    (draw : Bool) (b : Nat) :
    (a.proba = none → needs_exec a.proba draw = true) ∧
    (a.proba ≠ none → needs_exec a.proba draw = draw) ∧
    exec_one_action f a draw b =
      (if needs_exec a.proba draw then f^[max (a.rpt.getD 1) 1] b else b) ∧
    (a.proba = none → a.rpt = some 5 → exec_one_action f a draw b = f^[5] b) := by
  have hcount : pyOr a.rpt 1 = max (a.rpt.getD 1) 1 := by
    cases hr : a.rpt with
    | none => rfl
    | some n =>
      cases n with
      | zero => rfl
      | succ m => simp [pyOr, Option.getD, Nat.max_eq_left (Nat.le_add_left 1 m)]
  refine ⟨?_, ?_, ?_, ?_⟩
  · intro h; simp [needs_exec, h]
  · intro h
    cases hp : a.proba with
    | none => exact absurd hp h
    | some p => simp [needs_exec, hp]
  · unfold exec_one_action
    rw [hcount, execLoop_eq_iterate]
  · intro hp hr
    simp [exec_one_action, needs_exec, hp, hr, execLoop_eq_iterate, pyOr]

theorem exec_gate_and_repeat_amended_witness :
    needs_exec c2rec.proba false = true ∧
    exec_one_action Nat.succ c2rec false 0 = Nat.succ^[5] 0 := by
  have h := exec_gate_and_repeat_amended Nat.succ c2rec false 0
  exact ⟨h.1 rfl, h.2.2.2 rfl rfl⟩

/-- C1 (code divergence, evaluated at the failing inputs): after a unit
whose execution raises a non-skip exception, the consumer's `finally` block
delivers the stale previous `batch` again (`[1, 1]` instead of the claimed
`[1]`); with no previously delivered batch the consumer thread dies on
`UnboundLocalError`; and after a `SkipBatchException` the never-reset
`skip_batch` flag drops every subsequent successful unit as well. -/
theorem prefetch_consumer_stale_delivery :
    (run_batches_from_queue [FutRes.ok 1, FutRes.err]).delivered = [1, 1] ∧
    spec_consumer_delivered [FutRes.ok 1, FutRes.err] = [1] ∧
    (run_batches_from_queue [FutRes.err]).crashed = true ∧
    (run_batches_from_queue [FutRes.skipExc, FutRes.ok 2]).delivered = [] ∧
    spec_consumer_delivered [FutRes.skipExc, FutRes.ok 2] = [2] := by
  decide

/-- C5: the sequential ('for') back-end produces exactly one captured
result per init-produced bundle, in the bundles' original order (a raising
bundle contributes its exception in place, without aborting later
bundles), and the collection loop of `_call_post_fn` hands exactly that
list, unchanged, to aggregation. -/
theorem sequential_backend_result_shape (method : Nat → MethodRes)
    (bundles : List Nat) :
    (wrap_with_for method bundles).length = bundles.length ∧
    wrap_with_for method bundles = bundles.map (forOne method) ∧
    collect_results (wrap_with_for method bundles) = bundles.map (forOne method) := by
  have h : wrap_with_for method bundles = bundles.map (forOne method) := by
    unfold wrap_with_for
    rw [foldl_append_singleton]
    simp
  refine ⟨?_, h, ?_⟩
  · rw [h]; simp
  · rw [h, collect_results_eq]

/-- C4: with no `post` hook, if any bundle's captured result is an
exception, `_call_post_fn` prints the aggregated exception list and the
first exception's traceback, raises nothing, and returns the owning
object itself. -/
theorem dispatcher_default_aggregation (self : Nat) (futures : List BundleRes)
    (h : any_action_failed futures = true) :
    call_post_fn self none futures =
      { result := self,
        printedErrors := futures.filter (fun r => isException r),
        printedTraceback := (futures.filter (fun r => isException r)).head? } := by
  unfold call_post_fn
  rw [collect_results_eq]
  simp [h]

theorem dispatcher_default_aggregation_witness :
    call_post_fn 7 none [BundleRes.val 1, BundleRes.exc 3, BundleRes.exc 4] =
      { result := 7, printedErrors := [BundleRes.exc 3, BundleRes.exc 4],
        printedTraceback := some (BundleRes.exc 3) } := by
  have h := dispatcher_default_aggregation 7
    [BundleRes.val 1, BundleRes.exc 3, BundleRes.exc 4] (by decide)
  exact h.trans (by decide)

theorem lookup_append {α : Type} (l1 l2 : List (String × α)) (k : String) :
    (l1 ++ l2).lookup k = ((l1.lookup k).orElse (fun _ => l2.lookup k)) := by
  induction l1 with
  | nil => simp [List.lookup, Option.orElse]
  | cons kv rest ih =>
    obtain ⟨k1, v1⟩ := kv
    cases h : (k == k1) with
    | true => simp [List.lookup, h, Option.orElse]
    | false => simp [List.lookup, h, ih]

theorem lookup_map_override {α : Type} (d1 d2 : List (String × α)) (k : String) :
    (d1.map (fun kv => (kv.1, ((d2.lookup kv.1).getD kv.2)))).lookup k =
      (d1.lookup k).map (fun v => (d2.lookup k).getD v) := by
  induction d1 with
  | nil => simp [List.lookup]
  | cons kv rest ih =>
    obtain ⟨k1, v1⟩ := kv
    cases h : (k == k1) with
    | true =>
      have hk : k = k1 := eq_of_beq h
      subst hk
      simp [List.lookup, h]
    | false => simp [List.lookup, h, ih]

theorem lookup_filter_none {α : Type} (d1 d2 : List (String × α)) (k : String)
    (hk : d1.lookup k = none) :
    (d2.filter (fun kv => (d1.lookup kv.1).isNone)).lookup k = d2.lookup k := by
  induction d2 with
  | nil => simp
  | cons kv rest ih =>
    obtain ⟨k1, v1⟩ := kv
    cases h : (k == k1) with
    | true =>
      have hk1 : k = k1 := eq_of_beq h
      subst hk1
      rw [List.filter_cons]
      simp only [hk, Option.isNone_none, if_pos]
      simp [List.lookup, h]
    | false =>
      rw [List.filter_cons]
      by_cases hf : ((d1.lookup k1).isNone = true)
      · rw [if_pos hf]
        simp [List.lookup, h, ih]
      · rw [if_neg hf]
        simp [List.lookup, h, ih]

theorem pyDictMerge_lookup {α : Type} (d1 d2 : List (String × α)) (k : String) :
    (pyDictMerge d1 d2).lookup k = ((d2.lookup k).orElse (fun _ => d1.lookup k)) := by
  unfold pyDictMerge
  rw [lookup_append, lookup_map_override]
  cases h1 : d1.lookup k with
  | none =>
    rw [lookup_filter_none d1 d2 k h1]
    cases h2 : d2.lookup k <;> simp [Option.orElse]
  | some v =>
    cases h2 : d2.lookup k <;> simp [h2, Option.orElse]

/-- C6: during model resolution against a pipeline configuration, more than
one configuration key suffix-matching the builder's fully qualified name
(as `equal_names` matches) raises the ambiguous-config `ValueError`;
exactly one matching key merges that key's configuration with the call's
config, the call's values winning on every shared key. -/
theorem ambiguous_config_resolution (fc : List (String × Option Config))
    (full_model_name : String) (config : Option Config) :
    (1 < ((fc.map Prod.fst).filter (fun k => equal_names k full_model_name)).length →
      resolve_model_config (some fc) full_model_name config = .error .valueError) ∧
    (∀ mkey, (fc.map Prod.fst).filter (fun k => equal_names k full_model_name) = [mkey] →
      resolve_model_config (some fc) full_model_name config =
        .ok (some (pyDictMerge (((fc.lookup mkey).join).getD []) (config.getD []))) ∧
      ∀ key, (pyDictMerge (((fc.lookup mkey).join).getD []) (config.getD [])).lookup key =
        (((config.getD []).lookup key).orElse
          (fun _ => (((fc.lookup mkey).join).getD []).lookup key))) := by
  constructor
  · intro h
    cases hl : (fc.map Prod.fst).filter (fun k => equal_names k full_model_name) with
    | nil => rw [hl] at h; simp at h
    | cons a t =>
      cases t with
      | nil => rw [hl] at h; simp at h
      | cons b t2 =>
        simp only [resolve_model_config]
        rw [hl]
  · intro mkey hl
    constructor
    · simp only [resolve_model_config]
      rw [hl]
    · intro key
      exact pyDictMerge_lookup _ _ key

theorem ambiguous_config_resolution_witness :
    resolve_model_config (some c6fc) ("mod.B.A.f") c6conf = .error .valueError ∧
    resolve_model_config (some c6fc) ("mod.A.f") c6conf =
      .ok (some [(("x"), 9), (("y"), 2)]) ∧
    (pyDictMerge [(("x"), 1), (("y"), 2)] [(("x"), 9)]).lookup ("x") = some 9 := by
  have h1 := (ambiguous_config_resolution c6fc ("mod.B.A.f") c6conf).1 (by decide)
  have h2 := (ambiguous_config_resolution c6fc ("mod.A.f") c6conf).2 ("A.f") (by decide)
  refine ⟨h1, ?_, (h2.2 ("x")).trans (by decide)⟩
  have hm : pyDictMerge (((c6fc.lookup ("A.f")).join).getD []) (c6conf.getD []) =
      [(("x"), 9), (("y"), 2)] := by decide
  rw [h2.1, hm]

theorem setPC_same {n : Nat} (pcs : Fin n → PC) (t : Fin n) (c : PC) :
    setPC pcs t c t = c := by
  simp [setPC]

theorem setPC_ne {n : Nat} (pcs : Fin n → PC) (t : Fin n) (c : PC) (u : Fin n)
    (h : u ≠ t) : setPC pcs t c u = pcs u := by
  simp [setPC, h]

theorem regInv_init (n : Nat) : RegInv (regInit n) := by
  constructor
  · intro t h
    simp [regInit, inRegion] at h
  · intro t h
    simp [regInit] at h
  · simp [regInit]
  · simp [regInit]
  · intro t v h
    simp [regInit] at h

theorem regInv_step {n : Nat} {builder : Nat → Nat} {s s' : RegState n}
    (inv : RegInv s) (hs : RegStep builder s s') : RegInv s' := by
  cases hs with
  | check1_hit t h1 h2 =>
      refine ⟨?_, ?_, inv.dir_builds, inv.builds_le, ?_⟩
      · intro u hu
        dsimp only at hu ⊢
        by_cases he : u = t
        · subst he; rw [setPC_same] at hu; simp [inRegion] at hu
        · rw [setPC_ne _ _ _ _ he] at hu; exact inv.region_lock u hu
      · intro u hu
        dsimp only at hu ⊢
        by_cases he : u = t
        · subst he; rw [setPC_same] at hu; cases hu
        · rw [setPC_ne _ _ _ _ he] at hu; exact inv.build_dir u hu
      · intro u v hv
        dsimp only at hv ⊢
        by_cases he : u = t
        · subst he; rw [setPC_same] at hv; cases hv
        · rw [setPC_ne _ _ _ _ he] at hv; exact inv.done_dir u v hv
  | check1_miss t h1 h2 =>
      refine ⟨?_, ?_, inv.dir_builds, inv.builds_le, ?_⟩
      · intro u hu
        dsimp only at hu ⊢
        by_cases he : u = t
        · subst he; rw [setPC_same] at hu; simp [inRegion] at hu
        · rw [setPC_ne _ _ _ _ he] at hu; exact inv.region_lock u hu
      · intro u hu
        dsimp only at hu ⊢
        by_cases he : u = t
        · subst he; rw [setPC_same] at hu; cases hu
        · rw [setPC_ne _ _ _ _ he] at hu; exact inv.build_dir u hu
      · intro u v hv
        dsimp only at hv ⊢
        by_cases he : u = t
        · subst he; rw [setPC_same] at hv; cases hv
        · rw [setPC_ne _ _ _ _ he] at hv; exact inv.done_dir u v hv
  | lock_acquire t h1 h2 =>
      refine ⟨?_, ?_, inv.dir_builds, inv.builds_le, ?_⟩
      · intro u hu
        dsimp only at hu ⊢
        by_cases he : u = t
        · subst he; rfl
        · rw [setPC_ne _ _ _ _ he] at hu
          have hl := inv.region_lock u hu
          rw [h2] at hl
          cases hl
      · intro u hu
        dsimp only at hu ⊢
        by_cases he : u = t
        · subst he; rw [setPC_same] at hu; cases hu
        · rw [setPC_ne _ _ _ _ he] at hu; exact inv.build_dir u hu
      · intro u v hv
        dsimp only at hv ⊢
        by_cases he : u = t
        · subst he; rw [setPC_same] at hv; cases hv
        · rw [setPC_ne _ _ _ _ he] at hv; exact inv.done_dir u v hv
  | recheck_hit t h1 h2 =>
      refine ⟨?_, ?_, inv.dir_builds, inv.builds_le, ?_⟩
      · intro u hu
        dsimp only at hu ⊢
        by_cases he : u = t
        · subst he
          exact inv.region_lock u (Or.inl h1)
        · rw [setPC_ne _ _ _ _ he] at hu; exact inv.region_lock u hu
      · intro u hu
        dsimp only at hu ⊢
        by_cases he : u = t
        · subst he; rw [setPC_same] at hu; cases hu
        · rw [setPC_ne _ _ _ _ he] at hu; exact inv.build_dir u hu
      · intro u v hv
        dsimp only at hv ⊢
        by_cases he : u = t
        · subst he; rw [setPC_same] at hv; cases hv
        · rw [setPC_ne _ _ _ _ he] at hv; exact inv.done_dir u v hv
  | recheck_miss t h1 h2 =>
      refine ⟨?_, ?_, inv.dir_builds, inv.builds_le, ?_⟩
      · intro u hu
        dsimp only at hu ⊢
        by_cases he : u = t
        · subst he
          exact inv.region_lock u (Or.inl h1)
        · rw [setPC_ne _ _ _ _ he] at hu; exact inv.region_lock u hu
      · intro u hu
        exact h2
      · intro u v hv
        dsimp only at hv ⊢
        by_cases he : u = t
        · subst he; rw [setPC_same] at hv; cases hv
        · rw [setPC_ne _ _ _ _ he] at hv; exact inv.done_dir u v hv
  | do_build t h1 =>
      have hdir : s.dir = none := inv.build_dir t h1
      have hb0 : s.builds = 0 := inv.dir_builds.mp hdir
      refine ⟨?_, ?_, ?_, ?_, ?_⟩
      · intro u hu
        dsimp only at hu ⊢
        by_cases he : u = t
        · subst he
          exact inv.region_lock u (Or.inr (Or.inl h1))
        · rw [setPC_ne _ _ _ _ he] at hu; exact inv.region_lock u hu
      · intro u hu
        dsimp only at hu ⊢
        by_cases he : u = t
        · subst he; rw [setPC_same] at hu; cases hu
        · rw [setPC_ne _ _ _ _ he] at hu
          have hlt := inv.region_lock t (Or.inr (Or.inl h1))
          have hlu := inv.region_lock u (Or.inr (Or.inl hu))
          rw [hlt] at hlu
          cases hlu
          exact absurd rfl he
      · dsimp only
        constructor
        · intro h; cases h
        · intro h; omega
      · dsimp only
        omega
      · intro u v hv
        dsimp only at hv ⊢
        by_cases he : u = t
        · subst he; rw [setPC_same] at hv; cases hv
        · rw [setPC_ne _ _ _ _ he] at hv
          have hd := inv.done_dir u v hv
          rw [hdir] at hd
          cases hd
  | do_unlock t h1 =>
      refine ⟨?_, ?_, inv.dir_builds, inv.builds_le, ?_⟩
      · intro u hu
        dsimp only at hu ⊢
        by_cases he : u = t
        · subst he; rw [setPC_same] at hu; simp [inRegion] at hu
        · rw [setPC_ne _ _ _ _ he] at hu
          have hlt := inv.region_lock t (Or.inr (Or.inr h1))
          have hlu := inv.region_lock u hu
          rw [hlt] at hlu
          cases hlu
          exact absurd rfl he
      · intro u hu
        dsimp only at hu ⊢
        by_cases he : u = t
        · subst he; rw [setPC_same] at hu; cases hu
        · rw [setPC_ne _ _ _ _ he] at hu; exact inv.build_dir u hu
      · intro u v hv
        dsimp only at hv ⊢
        by_cases he : u = t
        · subst he; rw [setPC_same] at hv; cases hv
        · rw [setPC_ne _ _ _ _ he] at hv; exact inv.done_dir u v hv
  | do_read t v h1 h2 =>
      refine ⟨?_, ?_, inv.dir_builds, inv.builds_le, ?_⟩
      · intro u hu
        dsimp only at hu ⊢
        by_cases he : u = t
        · subst he; rw [setPC_same] at hu; simp [inRegion] at hu
        · rw [setPC_ne _ _ _ _ he] at hu; exact inv.region_lock u hu
      · intro u hu
        dsimp only at hu ⊢
        by_cases he : u = t
        · subst he; rw [setPC_same] at hu; cases hu
        · rw [setPC_ne _ _ _ _ he] at hu; exact inv.build_dir u hu
      · intro u w hw
        dsimp only at hw ⊢
        by_cases he : u = t
        · subst he
          rw [setPC_same] at hw
          cases hw
          exact h2
        · rw [setPC_ne _ _ _ _ he] at hw; exact inv.done_dir u w hw

theorem regReach_inv {n : Nat} {builder : Nat → Nat} {s : RegState n}
    (h : RegReach builder s) : RegInv s := by
  induction h with
  | init => exact regInv_init n
  | step hr hs ih => exact regInv_step ih hs

/-- C3: under the interleaving semantics of `_model_wrapper`'s
double-checked locking, in every reachable state of any number of workers
resolving one (builder, owning pipeline) key, the builder has been invoked
at most once, every completed resolution returned exactly the cached
directory entry, and any two completed resolutions returned the identical
value. -/
theorem model_builder_at_most_once {n : Nat} (builder : Nat → Nat)
    (s : RegState n) (h : RegReach builder s) :
    s.builds ≤ 1 ∧
    (∀ t v, s.pcs t = PC.done v → s.dir = some v) ∧
    (∀ t1 t2 v1 v2, s.pcs t1 = PC.done v1 → s.pcs t2 = PC.done v2 → v1 = v2) := by
  have inv := regReach_inv h
  refine ⟨inv.builds_le, inv.done_dir, ?_⟩
  intro t1 t2 v1 v2 h1 h2
  have e1 := inv.done_dir t1 v1 h1
  have e2 := inv.done_dir t2 v2 h2
  rw [e1] at e2
  exact Option.some.inj e2

theorem model_builder_at_most_once_witness :
    c3s8.builds ≤ 1 ∧ c3s8.dir = some 42 := by
  have r1 : RegReach c3builder c3s1 :=
    RegReach.step RegReach.init (RegStep.check1_miss c3s0 0 rfl rfl)
  have r2 : RegReach c3builder c3s2 :=
    RegReach.step r1 (RegStep.lock_acquire c3s1 0 rfl rfl)
  have r3 : RegReach c3builder c3s3 :=
    RegReach.step r2 (RegStep.recheck_miss c3s2 0 rfl rfl)
  have r4 : RegReach c3builder c3s4 :=
    RegReach.step r3 (RegStep.do_build c3s3 0 rfl)
  have r5 : RegReach c3builder c3s5 :=
    RegReach.step r4 (RegStep.do_unlock c3s4 0 rfl)
  have r6 : RegReach c3builder c3s6 :=
    RegReach.step r5 (RegStep.do_read c3s5 0 42 rfl rfl)
  have r7 : RegReach c3builder c3s7 :=
    RegReach.step r6 (RegStep.check1_hit c3s6 1 rfl (by decide))
  have r8 : RegReach c3builder c3s8 :=
    RegReach.step r7 (RegStep.do_read c3s7 1 42 rfl rfl)
  have h := model_builder_at_most_once c3builder c3s8 r8
  exact ⟨h.1, h.2.1 0 42 (by decide)⟩

theorem adjust_none_none (l : List ActionRecord) :
    adjust_single_action l none none = l := by
  unfold adjust_single_action
  simp

theorem updateLastRec_concat (l : List ActionRecord) (a : ActionRecord)
    (f : ActionRecord → ActionRecord) :
    updateLastRec (l ++ [a]) f = l ++ [f a] := by
  unfold updateLastRec
  rw [List.dropLast_concat, List.getLast?_concat]
  rfl

theorem updFn_read (f : Nat → List ActionRecord) (r : Nat) (l : List ActionRecord)
    (x : Nat) (h : f x = l) : updFn f r l x = l := by
  by_cases hx : x = r <;> simp [updFn, hx, h]

/-- C7: a permitted concatenation yields a pipeline whose action list has
length `len(a) + len(b)`, and leaves both operands' action lists exactly
as they were (the copies made by `from_pipeline` are mutated, never the
originals). -/
theorem concat_length_no_mutation (st : Store) (p1 p2 : PipelineR)
    (hv1 : p1.actionsRef < st.next) (hv2 : p2.actionsRef < st.next)
    (st' : Store) (c : PipelineR)
    (hok : concat st p1 p2 = .ok (st', c)) :
    (readRef st' c.actionsRef).length
      = (readRef st p1.actionsRef).length + (readRef st p2.actionsRef).length ∧
    readRef st' p1.actionsRef = readRef st p1.actionsRef ∧
    readRef st' p2.actionsRef = readRef st p2.actionsRef := by
  have hc : ¬(p1.dataset ≠ p2.dataset ∧ p1.dataset ≠ none ∧ p2.dataset ≠ none) := by
    intro hcon
    unfold concat at hok
    rw [if_pos hcon] at hok
    cases hok
  unfold concat at hok
  rw [if_neg hc] at hok
  simp only [from_pipeline, init_from_pipeline, alloc, writeRef, readRef,
    adjust_none_none] at hok
  injection hok with hp
  injection hp with hst hcp
  subst hst
  subst hcp
  have e1 : p1.actionsRef ≠ st.next := by omega
  have e1' : p1.actionsRef ≠ st.next + 1 := by omega
  have e2 : p2.actionsRef ≠ st.next := by omega
  have e2' : p2.actionsRef ≠ st.next + 1 := by omega
  have ha : st.next ≠ st.next + 1 := by omega
  refine ⟨?_, ?_, ?_⟩ <;>
    simp [readRef, updFn, e1, e1', e2, e2', ha]

theorem concat_length_no_mutation_witness :
    (readRef c7Res.1 c7Res.2.actionsRef).length
      = (readRef c7Store c7p1.actionsRef).length
        + (readRef c7Store c7p2.actionsRef).length ∧
    readRef c7Res.1 c7p1.actionsRef = readRef c7Store c7p1.actionsRef ∧
    readRef c7Res.1 c7p2.actionsRef = readRef c7Store c7p2.actionsRef :=
  concat_length_no_mutation c7Store c7p1 c7p2 (by decide) (by decide)
    c7Res.1 c7Res.2 rfl

/-- C9: `concat` raises the conflicting-source `ValueError` exactly when
both pipelines are bound to non-null, different datasets; otherwise it
succeeds and the result is bound to `pipe1.dataset or pipe2.dataset`, i.e.
to the unique non-null source when at most one is non-null. -/
theorem concat_conflicting_source (st : Store) (p1 p2 : PipelineR) :
    (isError (concat st p1 p2) = true ↔
      (p1.dataset ≠ p2.dataset ∧ p1.dataset ≠ none ∧ p2.dataset ≠ none)) ∧
    (∀ st' c, concat st p1 p2 = .ok (st', c) →
      c.dataset = pyOr_opt p1.dataset p2.dataset ∧
      (p1.dataset = none → c.dataset = p2.dataset) ∧
      (p2.dataset = none → c.dataset = p1.dataset)) := by
  by_cases hc : p1.dataset ≠ p2.dataset ∧ p1.dataset ≠ none ∧ p2.dataset ≠ none
  · constructor
    · constructor
      · intro _; exact hc
      · intro _
        unfold concat
        rw [if_pos hc]
        rfl
    · intro st' c hok
      unfold concat at hok
      rw [if_pos hc] at hok
      cases hok
  · constructor
    · constructor
      · intro hisErr
        unfold concat at hisErr
        rw [if_neg hc] at hisErr
        simp only [from_pipeline, init_from_pipeline, alloc, writeRef, readRef,
          adjust_none_none] at hisErr
        cases hisErr
      · intro h
        exact absurd h hc
    · intro st' c hok
      unfold concat at hok
      rw [if_neg hc] at hok
      simp only [from_pipeline, init_from_pipeline, alloc, writeRef, readRef,
        adjust_none_none] at hok
      injection hok with hp
      injection hp with hst hcp
      subst hcp
      refine ⟨rfl, ?_, ?_⟩
      · intro hnone
        simp [pyOr_opt, hnone]
      · intro hnone
        cases hd : p1.dataset <;> simp [pyOr_opt, hnone, hd]

theorem concat_conflicting_source_witness :
    isError (concat c7Store c9pa c9pb) = true ∧
    c9Res.2.dataset = some 7 := by
  have h1 := (concat_conflicting_source c7Store c9pa c9pb).1.mpr
    ⟨by decide, by decide, by decide⟩
  have h2 := (concat_conflicting_source c7Store c9pc c9pd).2 c9Res.1 c9Res.2 rfl
  exact ⟨h1, h2.2.1 rfl⟩

/-- C8: appending one action produces a new pipeline whose action list is
the original list followed by the completed record, the original
pipeline's action list is value-equal to what it was before the append,
and the two pipelines reference distinct list objects (no back-reference,
so mutating one can never affect the other). -/
theorem append_action_copy_on_append (st : Store) (p : PipelineR) (name : String)
    (args : List Nat) (kwargs : List (String × Nat)) :
    readRef (call_action_method st p name args kwargs).1
        (call_action_method st p name args kwargs).2.2.actionsRef
      = readRef st p.actionsRef ++
        [{ name := name, args := args, kwargs := kwargs, proba := none, rpt := none }] ∧
    readRef (call_action_method st p name args kwargs).1
        (call_action_method st p name args kwargs).2.1.actionsRef
      = readRef st p.actionsRef ∧
    (call_action_method st p name args kwargs).2.2.actionsRef ≠
      (call_action_method st p name args kwargs).2.1.actionsRef := by
  simp only [call_action_method, getattr_action, append_action, from_pipeline,
    init_from_pipeline, alloc, writeRef, readRef]
  have ha : st.next ≠ st.next + 1 := by omega
  simp only [updFn_same, updateLastRec_concat, adjust_none_none,
    updFn_ne _ _ _ _ ha, updFn_read, List.dropLast_concat]
  refine ⟨trivial, trivial, by omega⟩

theorem append_action_copy_on_append_witness :
    readRef c8Res.1 c8Res.2.2.actionsRef
      = readRef c7Store c7p1.actionsRef ++
        [{ name := ("load"), args := [5], kwargs := [(("fmt"), 1)],
           proba := none, rpt := none }] ∧
    readRef c8Res.1 c8Res.2.1.actionsRef = readRef c7Store c7p1.actionsRef ∧
    c8Res.2.2.actionsRef ≠ c8Res.2.1.actionsRef :=
  append_action_copy_on_append c7Store c7p1 ("load") [5] [(("fmt"), 1)]
